import Mathlib

/-!
Shallow embedding of the AMM arbitrage V2 strategy
(`hummingbot/strategy/amm_arb/amm_arb_controller.py`,
`hummingbot/strategy/amm_arb/amm_arb_config.py`).

Python `Decimal` quantities are embedded as exact rationals (`ℚ`); the spec
states that all numeric values are exact decimal quantities with no binary
floating-point rounding.  Python coroutines that can raise are embedded as
functions into `Except`.  Collaborators that are not part of the shown
sources (the proposal builder `create_arb_proposals`, the profitability
evaluator `ArbProposal.profit_pct` from `data_types`, and configuration-load
validation) are modelled from the spec, as marked on their doc comments.
-/

namespace AmmArb

/-- Trade direction of an order (from `hummingbot.core.data_type.common`). -/
inductive TradeType where
  | BUY
  | SELL
  deriving DecidableEq, Repr

/-- Order kind (from `hummingbot.core.data_type.common`); the controller only
emits `TAKER` orders. -/
inductive OrderType where
  | TAKER
  | MAKER
  | LIMIT
  deriving DecidableEq, Repr

/-- One side of an arbitrage proposal: the venue it trades on (its market
name and trading pair), its direction, base amount, quoted execution price
and fee rate (from `hummingbot.strategy.amm_arb.data_types`, as described by
the spec data model). -/
structure ArbProposalSide where
  market_name : String
  trading_pair : String
  is_buy : Bool
  amount : ℚ
  order_price : ℚ
  fee_pct : ℚ
  deriving DecidableEq, Repr

/-- An ordered pair of proposal sides, one buy and one sell of the same
amount on two venues. -/
structure ArbProposal where
  first_side : ArbProposalSide
  second_side : ArbProposalSide
  deriving DecidableEq, Repr

/-- The spec's data-model invariant for one proposal side:
amount > 0, price > 0, fee rate in [0,1). -/
def SideOk (s : ArbProposalSide) : Prop :=
  0 < s.amount ∧ 0 < s.order_price ∧ 0 ≤ s.fee_pct ∧ s.fee_pct < 1

/-- Modelled from the spec: the Profitability Evaluator
(`ArbProposal.profit_pct` of `hummingbot.strategy.amm_arb.data_types`) is not
among the shown sources.  Per spec section 4.2:
outlay = buy.amount * buy.price * (1 + buy.fee when fees are counted),
proceeds = sell.amount * sell.price * (1 - sell.fee when fees are counted),
result = proceeds / outlay - 1. -/
def ArbProposal.profit_pct (p : ArbProposal) (account_for_fee : Bool) : ℚ :=
  let buy_side := if p.first_side.is_buy then p.first_side else p.second_side
  let sell_side := if p.first_side.is_buy then p.second_side else p.first_side
  let outlay := buy_side.amount * buy_side.order_price *
    (if account_for_fee then 1 + buy_side.fee_pct else 1)
  let proceeds := sell_side.amount * sell_side.order_price *
    (if account_for_fee then 1 - sell_side.fee_pct else 1)
  proceeds / outlay - 1

/-- The configuration surface consumed by the controller
(`AmmArbV2Config` in `amm_arb_config.py`): two connectors, two trading
pairs, order-amount bounds, minimum profitability and the two per-venue
slippage buffers, plus the controller id used when creating executors. -/
structure Config where
  id : String
  connector_1 : String
  trading_pair_1 : String
  connector_2 : String
  trading_pair_2 : String
  min_order_amount : ℚ
  max_order_amount : ℚ
  min_profitability : ℚ
  market_1_slippage_buffer : ℚ
  market_2_slippage_buffer : ℚ
  deriving DecidableEq, Repr

/-- An order candidate (from `hummingbot.core.data_type.order_candidate`),
with the fields the controller fills in. -/
structure OrderCandidate where
  trading_pair : String
  is_maker : Bool
  trade_type : TradeType
  order_type : OrderType
  amount : ℚ
  price : ℚ
  deriving DecidableEq, Repr

/-- `AmmArbV2Controller.get_slippage_buffer`: the buffer for market 1 when
the side's market name matches the configured first connector, else the
buffer for market 2. -/
def get_slippage_buffer (cfg : Config) (side : ArbProposalSide) : ℚ :=
  if side.market_name = cfg.connector_1 then cfg.market_1_slippage_buffer
  else cfg.market_2_slippage_buffer

/-- `AmmArbV2Controller.create_order_candidate`: taker order preserving the
side's amount and direction, price adjusted by the side's slippage buffer
(up for a buy, down for a sell). -/
def create_order_candidate (cfg : Config) (side : ArbProposalSide) : OrderCandidate :=
  let slippage_buffer := get_slippage_buffer cfg side
  let price_adjustment : ℚ := 1 + (if side.is_buy then slippage_buffer else -slippage_buffer)
  let price := side.order_price * price_adjustment
  { trading_pair := side.trading_pair
    is_maker := false
    trade_type := if side.is_buy then TradeType.BUY else TradeType.SELL
    order_type := OrderType.TAKER
    amount := side.amount
    price := price }

/-- Errors of the Quote Provider / Proposal Builder collaborator (spec
sections 6 and 7). -/
inductive BuildError where
  | InsufficientLiquidity
  | QuoteProviderUnavailable
  deriving DecidableEq, Repr

/-- Modelled from the spec: the Proposal Builder (`create_arb_proposals` of
`hummingbot.strategy.amm_arb.utils`) is not among the shown sources.  A
builder takes the buy venue, the sell venue and the order amount, and
returns the proposal that buys that amount on the first venue and sells it
on the second (the controller keeps `proposals[0]`), or fails with an error
such as `InsufficientLiquidity`. -/
abbrev Builder : Type := String → String → ℚ → Except BuildError ArbProposal

/-- The number of sizes checked by one directional sweep: the literal
`num_steps = 20` inside `find_best_size_for_direction`. -/
def num_steps : ℕ := 20

/-- `step_size = (max_order_amount - min_order_amount) / (num_steps - 1)`
from `find_best_size_for_direction`. -/
def step_size (cfg : Config) : ℚ :=
  (cfg.max_order_amount - cfg.min_order_amount) / ((num_steps : ℚ) - 1)

/-- `order_amount = min_order_amount + i * step_size`, the i-th sampled size
of a sweep. -/
def order_amount (cfg : Config) (i : ℕ) : ℚ :=
  cfg.min_order_amount + (i : ℚ) * step_size cfg

/-- The `for i in range(num_steps)` loop of `find_best_size_for_direction`,
starting at sample index `i` with `fuel` samples left, tracking the best
fee-aware profitability seen and its proposal.  The Python loop body has no
exception handler, so a failing build propagates out of the loop. -/
def sweepLoop (build : Builder) (buy_market sell_market : String) (cfg : Config)
    (i fuel : ℕ) (best_profit_pct : ℚ) (best_proposal : Option ArbProposal) :
    Except BuildError (ℚ × Option ArbProposal) :=
  match fuel with
  | 0 => .ok (best_profit_pct, best_proposal)
  | fuel' + 1 =>
    match build buy_market sell_market (order_amount cfg i) with
    | .error e => .error e
    | .ok proposal =>
      if proposal.profit_pct true > best_profit_pct then
        sweepLoop build buy_market sell_market cfg (i + 1) fuel'
          (proposal.profit_pct true) (some proposal)
      else
        sweepLoop build buy_market sell_market cfg (i + 1) fuel'
          best_profit_pct best_proposal

/-- `AmmArbV2Controller.find_best_size_for_direction`: sweeps the 20 sampled
sizes starting from `best_profit_pct = -1`, `best_proposal = None`, and
returns the best proposal and profitability only when a proposal was kept
and its profitability is strictly positive. -/
def find_best_size_for_direction (build : Builder) (buy_market sell_market : String)
    (cfg : Config) : Except BuildError (Option (ArbProposal × ℚ)) :=
  match sweepLoop build buy_market sell_market cfg 0 num_steps (-1) none with
  | .error e => .error e
  | .ok (best_profit_pct, best_proposal) =>
    match best_proposal with
    | some p =>
      if best_profit_pct > 0 then .ok (some (p, best_profit_pct)) else .ok none
    | none => .ok none

/-- `AmmArbV2Controller.find_optimal_arb_opportunity`: runs the sweep for
both directions (market 1 buy / market 2 sell, and the reverse) and keeps
`opp1` only when its profitability is strictly greater than `opp2`'s
(`return opp1 if opp1[1] > opp2[1] else opp2`, then `return opp1 or opp2`). -/
def find_optimal_arb_opportunity (build : Builder) (cfg : Config) :
    Except BuildError (Option (ArbProposal × ℚ)) :=
  match find_best_size_for_direction build cfg.connector_1 cfg.connector_2 cfg with
  | .error e => .error e
  | .ok opp1 =>
    match find_best_size_for_direction build cfg.connector_2 cfg.connector_1 cfg with
    | .error e => .error e
    | .ok opp2 =>
      match opp1, opp2 with
      | some o1, some o2 => .ok (if o1.2 > o2.2 then some o1 else some o2)
      | some o1, none => .ok (some o1)
      | none, some o2 => .ok (some o2)
      | none, none => .ok none

/-- The fields of `ExecutorInfo` the controller fills in when creating an
executor for one proposal side. -/
structure ExecutorInfo where
  controller_id : String
  executor_name : String
  order_candidate : OrderCandidate
  deriving DecidableEq, Repr

/-- `AmmArbV2Controller.create_executors`: one executor per side of the
proposal, each holding the side's order candidate. -/
def create_executors (cfg : Config) (proposal : ArbProposal) : List ExecutorInfo :=
  [proposal.first_side, proposal.second_side].map (fun side =>
    { controller_id := cfg.id, executor_name := "dca_simple",
      order_candidate := create_order_candidate cfg side })

/-- The controller's only mutable state: the `last_proposal` slot. -/
structure ControllerState where
  last_proposal : Option ArbProposal
  deriving DecidableEq, Repr

/-- `AmmArbV2Controller.determine_actions` as a state transformer: with no
opportunity it returns no actions and leaves the state alone; with an
opportunity it overwrites `last_proposal` and creates executors only when
the profitability reaches `min_profitability` (non-strict `>=`). -/
def determine_actions (build : Builder) (cfg : Config) (st : ControllerState) :
    Except BuildError (List ExecutorInfo × ControllerState) :=
  match find_optimal_arb_opportunity build cfg with
  | .error e => .error e
  | .ok none => .ok ([], st)
  | .ok (some (proposal, profit_pct)) =>
    if profit_pct ≥ cfg.min_profitability then
      .ok (create_executors cfg proposal, { last_proposal := some proposal })
    else
      .ok ([], { last_proposal := some proposal })

/-- Errors raised at configuration-load time (spec section 7). -/
inductive ConfigurationError where
  | invalidOrderBounds
  | invalidStepCount
  | negativeFraction
  deriving DecidableEq, Repr

/-- Modelled from the spec: configuration loading/validation is outside the
shown sources (spec sections 1 and 7).  It rejects
`max_order_amount < min_order_amount`, a sweep step count below 2, and any
negative fraction (minimum profitability or a slippage buffer). -/
def validate_config (cfg : Config) (steps : ℕ) : Except ConfigurationError Unit :=
  if cfg.max_order_amount < cfg.min_order_amount then .error .invalidOrderBounds
  else if steps < 2 then .error .invalidStepCount
  else if cfg.min_profitability < 0 ∨ cfg.market_1_slippage_buffer < 0 ∨
      cfg.market_2_slippage_buffer < 0 then .error .negativeFraction
  else .ok ()

/-- A whole-pipeline error: fatal configuration rejection, or a build error
escaping a sweep. -/
inductive PipelineError where
  | configurationError (e : ConfigurationError)
  | buildError (e : BuildError)
  deriving DecidableEq, Repr

/-- Modelled from the spec: configuration load precedes any cycle, and a
`ConfigurationError` is fatal — the pipeline (and hence any sweep) must not
run.  On a valid configuration one controller cycle runs; the sweep itself
uses the controller's fixed 20-step count. -/
def load_and_run (build : Builder) (cfg : Config) (steps : ℕ) (st : ControllerState) :
    Except PipelineError (List ExecutorInfo × ControllerState) :=
  match validate_config cfg steps with
  | .error e => .error (.configurationError e)
  | .ok _ =>
    match determine_actions build cfg st with
    | .error e => .error (.buildError e)
    | .ok r => .ok r

/-- Reference description of the sweep loop when every build succeeds, used
by the proofs: the running maximum profitability updated on strict
improvement only, together with the kept proposal. -/
def runBest (profit : ℕ → ℚ) (prop : ℕ → ArbProposal) (i fuel : ℕ)
    (best_profit_pct : ℚ) (best_proposal : Option ArbProposal) :
    ℚ × Option ArbProposal :=
  match fuel with
  | 0 => (best_profit_pct, best_proposal)
  | fuel' + 1 =>
    if profit i > best_profit_pct then
      runBest profit prop (i + 1) fuel' (profit i) (some (prop i))
    else
      runBest profit prop (i + 1) fuel' best_profit_pct best_proposal

/-- Shorthand for building a proposal side. -/
def mkSide (m tp : String) (b : Bool) (a p f : ℚ) : ArbProposalSide :=
  { market_name := m, trading_pair := tp, is_buy := b, amount := a,
    order_price := p, fee_pct := f }

/-- The spec's worked example, buy side: 1 base unit at price 100 with a
0.1% fee. -/
def exampleBuySide : ArbProposalSide :=
  { market_name := "binance", trading_pair := "BTC-USDT", is_buy := true,
    amount := 1, order_price := 100, fee_pct := 1/1000 }

/-- The spec's worked example, sell side: 1 base unit at price 101 with a
0.1% fee. -/
def exampleSellSide : ArbProposalSide :=
  { market_name := "uniswap_v2", trading_pair := "WBTC-WETH", is_buy := false,
    amount := 1, order_price := 101, fee_pct := 1/1000 }

/-- The spec's worked example proposal. -/
def exampleProposal : ArbProposal :=
  { first_side := exampleBuySide, second_side := exampleSellSide }

/-- A concrete configuration with the defaults of `AmmArbV2Config`. -/
def exampleConfig : Config :=
  { id := "main", connector_1 := "binance", trading_pair_1 := "BTC-USDT",
    connector_2 := "uniswap_v2", trading_pair_2 := "WBTC-WETH",
    min_order_amount := 1/100, max_order_amount := 1,
    min_profitability := 1/200,
    market_1_slippage_buffer := 1/100, market_2_slippage_buffer := 1/100 }

/-- A configuration whose sweep is rejected by validation:
`max_order_amount < min_order_amount`. -/
def badBoundsConfig : Config :=
  { exampleConfig with max_order_amount := 0 }

/-- The proposal `goodBuilder` produces for the i-th sampled size of `cfg`. -/
def goodSample (cfg : Config) (buy_market sell_market : String) (i : ℕ) :
    ArbProposal :=
  { first_side := mkSide buy_market "BTC-USDT" true (order_amount cfg i) 1 0,
    second_side := mkSide sell_market "WBTC-WETH" false (order_amount cfg i) 2 0 }

/-- A builder whose quotes always succeed with buy price 1 and sell price 2
and no fees, so every sample has fee-aware profitability 1. -/
def goodBuilder : Builder := fun buy_market sell_market a =>
  .ok { first_side := mkSide buy_market "BTC-USDT" true a 1 0,
        second_side := mkSide sell_market "WBTC-WETH" false a 2 0 }

/-- A builder whose quotes always succeed with equal buy and sell prices and
no fees, so every sample has fee-aware profitability 0 (no opportunity). -/
def flatBuilder : Builder := fun buy_market sell_market a =>
  .ok { first_side := mkSide buy_market "BTC-USDT" true a 1 0,
        second_side := mkSide sell_market "WBTC-WETH" false a 1 0 }

/-- The proposal `flatBuilder` produces for the i-th sampled size of `cfg`. -/
def flatSample (cfg : Config) (buy_market sell_market : String) (i : ℕ) :
    ArbProposal :=
  { first_side := mkSide buy_market "BTC-USDT" true (order_amount cfg i) 1 0,
    second_side := mkSide sell_market "WBTC-WETH" false (order_amount cfg i) 1 0 }

/-- A builder with insufficient liquidity at the smallest sampled size of
`exampleConfig` and profitable quotes everywhere else. -/
def badBuilder : Builder := fun buy_market sell_market a =>
  if a ≤ 1/100 then .error .InsufficientLiquidity
  else goodBuilder buy_market sell_market a

/-- C7: for every proposal whose sides satisfy the data-model invariant
(amounts > 0, prices > 0, fee rates in [0,1)), the fee-aware profitability
is at most the fee-less one: fees never improve the computed percentage. -/
theorem profit_pct_fee_le (p : ArbProposal)
    (h1 : SideOk p.first_side) (h2 : SideOk p.second_side) :
    p.profit_pct true ≤ p.profit_pct false := by
  have key : ∀ A S fb fs : ℚ, 0 < A → 0 < S → 0 ≤ fb → 0 ≤ fs →
      S * (1 - fs) / (A * (1 + fb)) - 1 ≤ S / A - 1 := by
    intro A S fb fs hA hS hfb hfs
    apply sub_le_sub_right
    apply div_le_div₀ (le_of_lt hS) (by nlinarith) hA (by nlinarith)
  obtain ⟨ha1, hp1, hf1, hf1'⟩ := h1
  obtain ⟨ha2, hp2, hf2, hf2'⟩ := h2
  unfold ArbProposal.profit_pct
  by_cases hb : p.first_side.is_buy
  · simp only [hb, Bool.false_eq_true, if_true, if_false, reduceIte, mul_one]
    exact key _ _ _ _ (mul_pos ha1 hp1) (mul_pos ha2 hp2) hf1 hf2
  · simp only [hb, Bool.false_eq_true, if_true, if_false, reduceIte, mul_one]
    exact key _ _ _ _ (mul_pos ha2 hp2) (mul_pos ha1 hp1) hf2 hf1

/-- Closed witness for `profit_pct_fee_le`: the spec's worked example, a buy
at price 100 and a sell at price 101 for 1 base unit with a 0.1% fee on both
sides. -/
theorem profit_pct_fee_le_witness :
    exampleProposal.profit_pct true ≤ exampleProposal.profit_pct false :=
  profit_pct_fee_le exampleProposal
    (by refine ⟨?_, ?_, ?_, ?_⟩ <;> norm_num [exampleProposal, exampleBuySide])
    (by refine ⟨?_, ?_, ?_, ?_⟩ <;> norm_num [exampleProposal, exampleSellSide])

/-- C5: `create_order_candidate` produces a taker (non-maker) candidate
preserving the side's amount and direction, with price
quoted_price * (1 + buffer) for a buy and quoted_price * (1 - buffer) for a
sell; with buffer ≥ 0 and a positive quoted price, a buy candidate's price
is ≥ the quoted price and a sell candidate's price is ≤ it. -/
theorem create_order_candidate_spec (cfg : Config) (side : ArbProposalSide)
    (hb : 0 ≤ get_slippage_buffer cfg side) (hp : 0 < side.order_price) :
    (create_order_candidate cfg side).is_maker = false ∧
    (create_order_candidate cfg side).order_type = OrderType.TAKER ∧
    (create_order_candidate cfg side).amount = side.amount ∧
    (create_order_candidate cfg side).trade_type =
      (if side.is_buy then TradeType.BUY else TradeType.SELL) ∧
    (create_order_candidate cfg side).price =
      (if side.is_buy then side.order_price * (1 + get_slippage_buffer cfg side)
       else side.order_price * (1 - get_slippage_buffer cfg side)) ∧
    (side.is_buy = true → side.order_price ≤ (create_order_candidate cfg side).price) ∧
    (side.is_buy = false → (create_order_candidate cfg side).price ≤ side.order_price) := by
  have hprice : (create_order_candidate cfg side).price =
      side.order_price *
        (1 + (if side.is_buy then get_slippage_buffer cfg side
              else -(get_slippage_buffer cfg side))) := rfl
  refine ⟨rfl, rfl, rfl, rfl, ?_, ?_, ?_⟩
  · rw [hprice]
    by_cases h : side.is_buy
    · simp only [h, Bool.false_eq_true, if_true, if_false, reduceIte]
    · simp only [h, Bool.false_eq_true, if_true, if_false, reduceIte]
      ring
  · intro h
    rw [hprice]
    simp only [h, reduceIte]
    nlinarith
  · intro h
    rw [hprice]
    simp only [h, Bool.false_eq_true, reduceIte]
    nlinarith

/-- Closed witness for `create_order_candidate_spec` at a concrete config and
sell side with a 1% buffer. -/
theorem create_order_candidate_spec_witness :
    (create_order_candidate exampleConfig exampleSellSide).price ≤
      exampleSellSide.order_price :=
  (create_order_candidate_spec exampleConfig exampleSellSide
    (by norm_num [get_slippage_buffer, exampleConfig, exampleSellSide])
    (by norm_num [exampleSellSide])).2.2.2.2.2.2 rfl

theorem sweepLoop_zero (build : Builder) (bm sm : String) (cfg : Config)
    (i : ℕ) (bp : ℚ) (bprop : Option ArbProposal) :
    sweepLoop build bm sm cfg i 0 bp bprop = .ok (bp, bprop) := rfl

theorem sweepLoop_succ_error (build : Builder) (bm sm : String) (cfg : Config)
    (i f : ℕ) (bp : ℚ) (bprop : Option ArbProposal) (e : BuildError)
    (h : build bm sm (order_amount cfg i) = .error e) :
    sweepLoop build bm sm cfg i (f + 1) bp bprop = .error e := by
  conv_lhs => unfold sweepLoop
  simp only [h]

theorem sweepLoop_succ_ok (build : Builder) (bm sm : String) (cfg : Config)
    (i f : ℕ) (bp : ℚ) (bprop : Option ArbProposal) (p : ArbProposal)
    (h : build bm sm (order_amount cfg i) = .ok p) :
    sweepLoop build bm sm cfg i (f + 1) bp bprop =
      if p.profit_pct true > bp then
        sweepLoop build bm sm cfg (i + 1) f (p.profit_pct true) (some p)
      else
        sweepLoop build bm sm cfg (i + 1) f bp bprop := by
  conv_lhs => unfold sweepLoop
  simp only [h]

theorem runBest_zero (pr : ℕ → ℚ) (pp : ℕ → ArbProposal) (i : ℕ) (bp : ℚ)
    (bprop : Option ArbProposal) : runBest pr pp i 0 bp bprop = (bp, bprop) := rfl

theorem runBest_succ (pr : ℕ → ℚ) (pp : ℕ → ArbProposal) (i f : ℕ) (bp : ℚ)
    (bprop : Option ArbProposal) :
    runBest pr pp i (f + 1) bp bprop =
      if pr i > bp then runBest pr pp (i + 1) f (pr i) (some (pp i))
      else runBest pr pp (i + 1) f bp bprop := rfl

theorem sweepLoop_congr (b1 b2 : Builder) (bm sm : String) (cfg : Config) :
    ∀ fuel i bp bprop,
      (∀ j, i ≤ j → j < i + fuel →
        b1 bm sm (order_amount cfg j) = b2 bm sm (order_amount cfg j)) →
      sweepLoop b1 bm sm cfg i fuel bp bprop = sweepLoop b2 bm sm cfg i fuel bp bprop := by
  intro fuel
  induction fuel with
  | zero => intro i bp bprop _; rfl
  | succ f ih =>
    intro i bp bprop hagree
    have hi : b1 bm sm (order_amount cfg i) = b2 bm sm (order_amount cfg i) :=
      hagree i le_rfl (by omega)
    cases hb : b2 bm sm (order_amount cfg i) with
    | error e =>
      rw [sweepLoop_succ_error b1 bm sm cfg i f bp bprop e (hi.trans hb),
        sweepLoop_succ_error b2 bm sm cfg i f bp bprop e hb]
    | ok p =>
      rw [sweepLoop_succ_ok b1 bm sm cfg i f bp bprop p (hi.trans hb),
        sweepLoop_succ_ok b2 bm sm cfg i f bp bprop p hb]
      have hrest : ∀ j, i + 1 ≤ j → j < i + 1 + f →
          b1 bm sm (order_amount cfg j) = b2 bm sm (order_amount cfg j) :=
        fun j hj1 hj2 => hagree j (by omega) (by omega)
      by_cases hc : p.profit_pct true > bp
      · rw [if_pos hc, if_pos hc, ih (i + 1) _ _ hrest]
      · rw [if_neg hc, if_neg hc, ih (i + 1) _ _ hrest]

theorem sweepLoop_error_of_first_fail (build : Builder) (bm sm : String)
    (cfg : Config) (e : BuildError) (k : ℕ)
    (hfail : build bm sm (order_amount cfg k) = .error e) :
    ∀ fuel i bp bprop, i ≤ k → k < i + fuel →
      (∀ j, i ≤ j → j < k → ∃ p, build bm sm (order_amount cfg j) = .ok p) →
      sweepLoop build bm sm cfg i fuel bp bprop = .error e := by
  intro fuel
  induction fuel with
  | zero => intro i bp bprop hik hk _; omega
  | succ f ih =>
    intro i bp bprop hik hk hsucc
    rcases eq_or_lt_of_le hik with rfl | hlt
    · exact sweepLoop_succ_error build bm sm cfg i f bp bprop e hfail
    · obtain ⟨p, hp⟩ := hsucc i le_rfl hlt
      rw [sweepLoop_succ_ok build bm sm cfg i f bp bprop p hp]
      have hrest : ∀ j, i + 1 ≤ j → j < k →
          ∃ q, build bm sm (order_amount cfg j) = .ok q :=
        fun j hj1 hj2 => hsucc j (by omega) hj2
      by_cases hc : p.profit_pct true > bp
      · rw [if_pos hc]
        exact ih (i + 1) _ _ (by omega) (by omega) hrest
      · rw [if_neg hc]
        exact ih (i + 1) _ _ (by omega) (by omega) hrest

theorem sweepLoop_eq_runBest (build : Builder) (bm sm : String) (cfg : Config)
    (ps : ℕ → ArbProposal) :
    ∀ fuel i bp bprop,
      (∀ j, i ≤ j → j < i + fuel → build bm sm (order_amount cfg j) = .ok (ps j)) →
      sweepLoop build bm sm cfg i fuel bp bprop =
        .ok (runBest (fun j => (ps j).profit_pct true) ps i fuel bp bprop) := by
  intro fuel
  induction fuel with
  | zero => intro i bp bprop _; rfl
  | succ f ih =>
    intro i bp bprop hall
    have hi : build bm sm (order_amount cfg i) = .ok (ps i) := hall i le_rfl (by omega)
    rw [sweepLoop_succ_ok build bm sm cfg i f bp bprop (ps i) hi,
      runBest_succ]
    have hrest : ∀ j, i + 1 ≤ j → j < i + 1 + f →
        build bm sm (order_amount cfg j) = .ok (ps j) :=
      fun j hj1 hj2 => hall j (by omega) (by omega)
    by_cases hc : (ps i).profit_pct true > bp
    · rw [if_pos hc, if_pos hc]
      exact ih (i + 1) _ _ hrest
    · rw [if_neg hc, if_neg hc]
      exact ih (i + 1) _ _ hrest

theorem runBest_fst_le (pr : ℕ → ℚ) (pp : ℕ → ArbProposal) :
    ∀ fuel i bp bprop, bp ≤ (runBest pr pp i fuel bp bprop).1 := by
  intro fuel
  induction fuel with
  | zero => intro i bp bprop; exact le_refl bp
  | succ f ih =>
    intro i bp bprop
    rw [runBest_succ]
    by_cases hc : pr i > bp
    · rw [if_pos hc]
      exact le_trans (le_of_lt hc) (ih (i + 1) _ _)
    · rw [if_neg hc]
      exact ih (i + 1) _ _

theorem runBest_profit_le (pr : ℕ → ℚ) (pp : ℕ → ArbProposal) :
    ∀ fuel i bp bprop j, i ≤ j → j < i + fuel →
      pr j ≤ (runBest pr pp i fuel bp bprop).1 := by
  intro fuel
  induction fuel with
  | zero => intro i bp bprop j hij hj; omega
  | succ f ih =>
    intro i bp bprop j hij hj
    rw [runBest_succ]
    rcases eq_or_lt_of_le hij with rfl | hlt
    · by_cases hc : pr i > bp
      · rw [if_pos hc]
        exact runBest_fst_le pr pp f (i + 1) _ _
      · rw [if_neg hc]
        exact le_trans (not_lt.mp hc) (runBest_fst_le pr pp f (i + 1) _ _)
    · by_cases hc : pr i > bp
      · rw [if_pos hc]
        exact ih (i + 1) _ _ j (by omega) (by omega)
      · rw [if_neg hc]
        exact ih (i + 1) _ _ j (by omega) (by omega)

theorem runBest_cases (pr : ℕ → ℚ) (pp : ℕ → ArbProposal) :
    ∀ fuel i bp bprop,
      runBest pr pp i fuel bp bprop = (bp, bprop) ∨
      ∃ j, i ≤ j ∧ j < i + fuel ∧
        (runBest pr pp i fuel bp bprop).1 = pr j ∧
        (runBest pr pp i fuel bp bprop).2 = some (pp j) ∧
        bp < pr j ∧ ∀ k, i ≤ k → k < j → pr k < pr j := by
  intro fuel
  induction fuel with
  | zero => intro i bp bprop; exact Or.inl rfl
  | succ f ih =>
    intro i bp bprop
    rw [runBest_succ]
    by_cases hc : pr i > bp
    · rw [if_pos hc]
      rcases ih (i + 1) (pr i) (some (pp i)) with heq | ⟨j, hj1, hj2, h1, h2, hlt, hfirst⟩
      · right
        refine ⟨i, le_rfl, by omega, ?_, ?_, hc, ?_⟩
        · rw [heq]
        · rw [heq]
        · intro k hk1 hk2; omega
      · right
        refine ⟨j, by omega, by omega, h1, h2, lt_trans hc hlt, ?_⟩
        intro k hk1 hk2
        rcases eq_or_lt_of_le hk1 with rfl | hik
        · exact hlt
        · exact hfirst k (by omega) hk2
    · rw [if_neg hc]
      rcases ih (i + 1) bp bprop with heq | ⟨j, hj1, hj2, h1, h2, hlt, hfirst⟩
      · exact Or.inl heq
      · right
        refine ⟨j, by omega, by omega, h1, h2, hlt, ?_⟩
        intro k hk1 hk2
        rcases eq_or_lt_of_le hk1 with rfl | hik
        · exact lt_of_le_of_lt (not_lt.mp hc) hlt
        · exact hfirst k (by omega) hk2

theorem runBest_stuck (pr : ℕ → ℚ) (pp : ℕ → ArbProposal) :
    ∀ fuel i bp bprop, (∀ j, pr j ≤ bp) →
      runBest pr pp i fuel bp bprop = (bp, bprop) := by
  intro fuel
  induction fuel with
  | zero => intro i bp bprop _; rfl
  | succ f ih =>
    intro i bp bprop hle
    rw [runBest_succ, if_neg (not_lt.mpr (hle i))]
    exact ih (i + 1) bp bprop hle

theorem runBest_const (c : ℚ) (pr : ℕ → ℚ) (pp : ℕ → ArbProposal)
    (hc : ∀ j, pr j = c) (f i : ℕ) (bp : ℚ) (bprop : Option ArbProposal)
    (hbp : bp < c) :
    runBest pr pp i (f + 1) bp bprop = (c, some (pp i)) := by
  rw [runBest_succ, hc i, if_pos hbp]
  exact runBest_stuck pr pp f (i + 1) c (some (pp i)) (fun j => (hc j).le)

theorem order_amount_example_pos (j : ℕ) : 0 < order_amount exampleConfig j := by
  simp only [order_amount, step_size, num_steps, exampleConfig]
  norm_num
  positivity

theorem order_amount_example_ne (j : ℕ) : order_amount exampleConfig j ≠ 0 :=
  ne_of_gt (order_amount_example_pos j)

theorem goodSample_profit (cfg : Config) (bm sm : String) (j : ℕ)
    (ha : order_amount cfg j ≠ 0) :
    (goodSample cfg bm sm j).profit_pct true = 1 := by
  simp only [goodSample, mkSide, ArbProposal.profit_pct, reduceIte]
  norm_num
  rw [mul_comm, mul_div_assoc, div_self ha]
  norm_num

theorem flatSample_profit (cfg : Config) (bm sm : String) (j : ℕ)
    (ha : order_amount cfg j ≠ 0) :
    (flatSample cfg bm sm j).profit_pct true = 0 := by
  simp only [flatSample, mkSide, ArbProposal.profit_pct, reduceIte]
  norm_num
  rw [div_self ha]
  norm_num

theorem find_best_const_one (bm sm : String) (cfg : Config)
    (hpos : ∀ j, order_amount cfg j ≠ 0) :
    find_best_size_for_direction goodBuilder bm sm cfg =
      .ok (some (goodSample cfg bm sm 0, 1)) := by
  have hrun : sweepLoop goodBuilder bm sm cfg 0 num_steps (-1) none =
      .ok (runBest (fun j => (goodSample cfg bm sm j).profit_pct true)
        (goodSample cfg bm sm) 0 num_steps (-1) none) :=
    sweepLoop_eq_runBest goodBuilder bm sm cfg (goodSample cfg bm sm) num_steps 0 (-1)
      none (fun j h0 hj => rfl)
  have hval : runBest (fun j => (goodSample cfg bm sm j).profit_pct true)
      (goodSample cfg bm sm) 0 num_steps (-1) none =
      (1, some (goodSample cfg bm sm 0)) := by
    rw [show num_steps = 19 + 1 from rfl]
    exact runBest_const 1 _ _ (fun j => goodSample_profit cfg bm sm j (hpos j))
      19 0 (-1) none (by norm_num)
  unfold find_best_size_for_direction
  rw [hrun, hval]
  norm_num

theorem find_best_flat_none (bm sm : String) (cfg : Config)
    (hpos : ∀ j, order_amount cfg j ≠ 0) :
    find_best_size_for_direction flatBuilder bm sm cfg = .ok none := by
  have hrun : sweepLoop flatBuilder bm sm cfg 0 num_steps (-1) none =
      .ok (runBest (fun j => (flatSample cfg bm sm j).profit_pct true)
        (flatSample cfg bm sm) 0 num_steps (-1) none) :=
    sweepLoop_eq_runBest flatBuilder bm sm cfg (flatSample cfg bm sm) num_steps 0 (-1)
      none (fun j h0 hj => rfl)
  have hval : runBest (fun j => (flatSample cfg bm sm j).profit_pct true)
      (flatSample cfg bm sm) 0 num_steps (-1) none =
      (0, some (flatSample cfg bm sm 0)) := by
    rw [show num_steps = 19 + 1 from rfl]
    exact runBest_const 0 _ _ (fun j => flatSample_profit cfg bm sm j (hpos j))
      19 0 (-1) none (by norm_num)
  unfold find_best_size_for_direction
  rw [hrun, hval]
  norm_num

theorem find_optimal_good_example :
    find_optimal_arb_opportunity goodBuilder exampleConfig =
      .ok (some (goodSample exampleConfig exampleConfig.connector_2
        exampleConfig.connector_1 0, 1)) := by
  unfold find_optimal_arb_opportunity
  rw [find_best_const_one exampleConfig.connector_1 exampleConfig.connector_2
      exampleConfig order_amount_example_ne,
    find_best_const_one exampleConfig.connector_2 exampleConfig.connector_1
      exampleConfig order_amount_example_ne]
  norm_num

theorem find_optimal_flat_example :
    find_optimal_arb_opportunity flatBuilder exampleConfig = .ok none := by
  unfold find_optimal_arb_opportunity
  rw [find_best_flat_none exampleConfig.connector_1 exampleConfig.connector_2
      exampleConfig order_amount_example_ne,
    find_best_flat_none exampleConfig.connector_2 exampleConfig.connector_1
      exampleConfig order_amount_example_ne]

/-- C1: given the two directional sweep results `opp1` (buy on market 1,
sell on market 2) and `opp2` (the reverse), `find_optimal_arb_opportunity`
returns `opp1` only if its profitability is strictly greater than `opp2`'s;
in every other case with both present, including an exact tie, it returns
`opp2`; with exactly one present it returns that one; with neither it
returns none. -/
theorem find_optimal_selection (build : Builder) (cfg : Config)
    (opp1 opp2 : Option (ArbProposal × ℚ))
    (h1 : find_best_size_for_direction build cfg.connector_1 cfg.connector_2 cfg = .ok opp1)
    (h2 : find_best_size_for_direction build cfg.connector_2 cfg.connector_1 cfg = .ok opp2) :
    find_optimal_arb_opportunity build cfg =
      .ok (match opp1, opp2 with
        | some o1, some o2 => if o1.2 > o2.2 then some o1 else some o2
        | some o1, none => some o1
        | none, some o2 => some o2
        | none, none => none) := by
  unfold find_optimal_arb_opportunity
  simp only [h1, h2]
  rcases opp1 with _ | o1 <;> rcases opp2 with _ | o2 <;> rfl

/-- Closed witness for `find_optimal_selection`: with a builder quoting a
profitability of 1 for every sample in both directions, the exact tie makes
direction 2 win. -/
theorem find_optimal_selection_witness :
    find_optimal_arb_opportunity goodBuilder exampleConfig =
      .ok (if (goodSample exampleConfig exampleConfig.connector_1
              exampleConfig.connector_2 0, (1 : ℚ)).2 >
            (goodSample exampleConfig exampleConfig.connector_2
              exampleConfig.connector_1 0, (1 : ℚ)).2 then
          some (goodSample exampleConfig exampleConfig.connector_1
            exampleConfig.connector_2 0, (1 : ℚ))
        else some (goodSample exampleConfig exampleConfig.connector_2
          exampleConfig.connector_1 0, (1 : ℚ))) :=
  find_optimal_selection goodBuilder exampleConfig
    (some (goodSample exampleConfig exampleConfig.connector_1
      exampleConfig.connector_2 0, 1))
    (some (goodSample exampleConfig exampleConfig.connector_2
      exampleConfig.connector_1 0, 1))
    (find_best_const_one exampleConfig.connector_1 exampleConfig.connector_2
      exampleConfig order_amount_example_ne)
    (find_best_const_one exampleConfig.connector_2 exampleConfig.connector_1
      exampleConfig order_amount_example_ne)

/-- C2 (amended): when building the proposal for a sampled size fails with
`InsufficientLiquidity` (or any builder error) and every earlier sample
succeeds, the failure propagates out of `find_best_size_for_direction`: the
sweep aborts with that error instead of skipping the sample. -/
theorem find_best_size_error_propagates (build : Builder) (bm sm : String)
    (cfg : Config) (k : ℕ) (e : BuildError)
    (hk : k < num_steps)
    (hfail : build bm sm (order_amount cfg k) = .error e)
    (hsucc : ∀ j, j < k → ∃ p, build bm sm (order_amount cfg j) = .ok p) :
    find_best_size_for_direction build bm sm cfg = .error e := by
  unfold find_best_size_for_direction
  rw [sweepLoop_error_of_first_fail build bm sm cfg e k hfail num_steps 0 (-1) none
    (by omega) (by omega) (fun j h0 hj => hsucc j hj)]

/-- Closed counterexample to C2 as stated: with a builder that lacks
liquidity at the smallest sample only, the sweep does not skip the sample
and continue — it returns the `InsufficientLiquidity` failure itself, even
though the next sample succeeds with strictly positive profitability. -/
theorem insufficient_liquidity_aborts_sweep_cex :
    find_best_size_for_direction badBuilder "binance" "uniswap_v2" exampleConfig =
      .error .InsufficientLiquidity ∧
    badBuilder "binance" "uniswap_v2" (order_amount exampleConfig 1) =
      .ok (goodSample exampleConfig "binance" "uniswap_v2" 1) ∧
    0 < (goodSample exampleConfig "binance" "uniswap_v2" 1).profit_pct true := by
  have h0 : order_amount exampleConfig 0 = 1/100 := by
    norm_num [order_amount, step_size, num_steps, exampleConfig]
  have hfail : badBuilder "binance" "uniswap_v2" (order_amount exampleConfig 0) =
      .error .InsufficientLiquidity := by
    rw [show badBuilder "binance" "uniswap_v2" (order_amount exampleConfig 0) =
      (if order_amount exampleConfig 0 ≤ 1/100 then .error .InsufficientLiquidity
       else goodBuilder "binance" "uniswap_v2" (order_amount exampleConfig 0)) from rfl]
    rw [if_pos (le_of_eq h0)]
  refine ⟨?_, ?_, ?_⟩
  · unfold find_best_size_for_direction
    rw [sweepLoop_error_of_first_fail badBuilder "binance" "uniswap_v2" exampleConfig
      .InsufficientLiquidity 0 hfail num_steps 0 (-1) none (le_refl 0)
      (by norm_num [num_steps]) (fun j hj0 hj => absurd hj (Nat.not_lt_zero j))]
  · have h1 : ¬ (order_amount exampleConfig 1 ≤ 1/100) := by
      norm_num [order_amount, step_size, num_steps, exampleConfig]
    rw [show badBuilder "binance" "uniswap_v2" (order_amount exampleConfig 1) =
      (if order_amount exampleConfig 1 ≤ 1/100 then .error .InsufficientLiquidity
       else goodBuilder "binance" "uniswap_v2" (order_amount exampleConfig 1)) from rfl]
    rw [if_neg h1]
    rfl
  · rw [goodSample_profit exampleConfig "binance" "uniswap_v2" 1
      (order_amount_example_ne 1)]
    norm_num

/-- Closed witness for `find_best_size_error_propagates` at the failing
builder and sample index 0. -/
theorem find_best_size_error_propagates_witness :
    find_best_size_for_direction badBuilder "binance" "uniswap_v2" exampleConfig =
      .error .InsufficientLiquidity :=
  find_best_size_error_propagates badBuilder "binance" "uniswap_v2" exampleConfig 0
    .InsufficientLiquidity (by norm_num [num_steps])
    (by
      rw [show badBuilder "binance" "uniswap_v2" (order_amount exampleConfig 0) =
        (if order_amount exampleConfig 0 ≤ 1/100 then .error .InsufficientLiquidity
         else goodBuilder "binance" "uniswap_v2" (order_amount exampleConfig 0)) from rfl]
      rw [if_pos (le_of_eq (by norm_num [order_amount, step_size, num_steps, exampleConfig] :
        order_amount exampleConfig 0 = 1/100))])
    (fun j hj => absurd hj (Nat.not_lt_zero j))

/-- C3: a sweep uses exactly `num_steps = 20` samples
`size_i = min + i * (max - min) / (num_steps - 1)`, inclusive of both
endpoints; with min = 0.01 and max = 1.0, sample 0 is 0.01 and sample 19 is
exactly 1.0; and the sweep's result depends on the builder only through its
answers at those sampled sizes. -/
theorem sweep_sample_sizes :
    num_steps = 20 ∧
    (∀ (cfg : Config) (i : ℕ), order_amount cfg i =
      cfg.min_order_amount + (i : ℚ) *
        ((cfg.max_order_amount - cfg.min_order_amount) / ((num_steps : ℚ) - 1))) ∧
    (∀ cfg : Config, order_amount cfg 0 = cfg.min_order_amount ∧
      order_amount cfg (num_steps - 1) = cfg.max_order_amount) ∧
    (order_amount exampleConfig 0 = 1/100 ∧ order_amount exampleConfig 19 = 1) ∧
    (∀ (b1 b2 : Builder) (bm sm : String) (cfg : Config),
      (∀ i, i < num_steps → b1 bm sm (order_amount cfg i) = b2 bm sm (order_amount cfg i)) →
      find_best_size_for_direction b1 bm sm cfg =
        find_best_size_for_direction b2 bm sm cfg) := by
  refine ⟨rfl, fun cfg _ => rfl, ?_,
    ⟨by norm_num [order_amount, step_size, num_steps, exampleConfig],
      by norm_num [order_amount, step_size, num_steps, exampleConfig]⟩, ?_⟩
  · intro cfg
    constructor
    · simp [order_amount]
    · simp only [order_amount, step_size, num_steps]
      norm_num
      field_simp
  · intro b1 b2 bm sm cfg hagree
    unfold find_best_size_for_direction
    rw [sweepLoop_congr b1 b2 bm sm cfg num_steps 0 (-1) none
      (fun j h0 hj => hagree j (by omega))]

/-- Closed witness for `sweep_sample_sizes`: the endpoint evaluation at the
default configuration, and the agreement property applied to a builder
against itself. -/
theorem sweep_sample_sizes_witness :
    order_amount exampleConfig 19 = 1 ∧
    find_best_size_for_direction goodBuilder "binance" "uniswap_v2" exampleConfig =
      find_best_size_for_direction goodBuilder "binance" "uniswap_v2" exampleConfig :=
  ⟨sweep_sample_sizes.2.2.2.1.2,
    sweep_sample_sizes.2.2.2.2 goodBuilder goodBuilder "binance" "uniswap_v2"
      exampleConfig (fun _ _ => rfl)⟩

/-- C4: when every sample of a direction builds successfully,
`find_best_size_for_direction` tracks the running maximum with strict `>`:
any returned proposal is the earliest sample achieving the maximal
fee-aware profitability, and a result is returned if and only if that best
profitability is strictly positive. -/
theorem find_best_size_max_and_positivity (build : Builder) (bm sm : String)
    (cfg : Config) (ps : ℕ → ArbProposal)
    (hall : ∀ i, i < num_steps → build bm sm (order_amount cfg i) = .ok (ps i)) :
    (∀ p q, find_best_size_for_direction build bm sm cfg = .ok (some (p, q)) →
      0 < q ∧ ∃ i, i < num_steps ∧ p = ps i ∧ q = (ps i).profit_pct true ∧
        (∀ j, j < num_steps → (ps j).profit_pct true ≤ q) ∧
        (∀ j, j < i → (ps j).profit_pct true < q)) ∧
    (find_best_size_for_direction build bm sm cfg = .ok none →
      ∀ j, j < num_steps → (ps j).profit_pct true ≤ 0) ∧
    ((∃ j, j < num_steps ∧ 0 < (ps j).profit_pct true) →
      ∃ p q, find_best_size_for_direction build bm sm cfg = .ok (some (p, q))) := by
  have hrun : sweepLoop build bm sm cfg 0 num_steps (-1) none =
      .ok (runBest (fun j => (ps j).profit_pct true) ps 0 num_steps (-1) none) :=
    sweepLoop_eq_runBest build bm sm cfg ps num_steps 0 (-1) none
      (fun j h0 hj => hall j (by omega))
  set R := runBest (fun j => (ps j).profit_pct true) ps 0 num_steps (-1) none with hR
  have hrun' : sweepLoop build bm sm cfg 0 num_steps (-1) none = .ok (R.1, R.2) := by
    rw [Prod.mk.eta]; exact hrun
  have hmax : ∀ j, j < num_steps → (ps j).profit_pct true ≤ R.1 := by
    intro j hj
    exact runBest_profit_le (fun j => (ps j).profit_pct true) ps num_steps 0 (-1) none j
      (by omega) (by omega)
  have hfb : find_best_size_for_direction build bm sm cfg =
      (match R.2 with
        | some p => if R.1 > 0 then Except.ok (some (p, R.1)) else Except.ok none
        | none => Except.ok none) := by
    unfold find_best_size_for_direction
    rw [hrun']
  rcases runBest_cases (fun j => (ps j).profit_pct true) ps num_steps 0 (-1) none
    with heq | ⟨j, hj0, hjn, h1, h2, hlt, hfirst⟩
  · have hR1 : R.1 = -1 := by rw [hR, heq]
    have hR2 : R.2 = (none : Option ArbProposal) := by rw [hR, heq]
    refine ⟨?_, ?_, ?_⟩
    · intro p q hpq
      rw [hfb] at hpq
      simp [hR2] at hpq
    · intro _ j hj
      have hle := hmax j hj
      rw [hR1] at hle
      linarith
    · rintro ⟨j, hj, hpos⟩
      exfalso
      have hle := hmax j hj
      rw [hR1] at hle
      linarith
  · rw [← hR] at h1 h2
    refine ⟨?_, ?_, ?_⟩
    · intro p q hpq
      rw [hfb] at hpq
      simp only [h2] at hpq
      by_cases hpos : R.1 > 0
      · rw [if_pos hpos] at hpq
        simp only [Except.ok.injEq, Option.some.injEq, Prod.mk.injEq] at hpq
        obtain ⟨hp', hq'⟩ := hpq
        refine ⟨hq' ▸ hpos, j, by omega, hp'.symm, ?_, ?_, ?_⟩
        · rw [← hq', h1]
        · intro k hk
          rw [← hq']
          exact hmax k hk
        · intro k hk
          rw [← hq', h1]
          exact hfirst k (Nat.zero_le k) hk
      · rw [if_neg hpos] at hpq
        simp at hpq
    · intro hnone j' hj'
      rw [hfb] at hnone
      simp only [h2] at hnone
      by_cases hpos : R.1 > 0
      · rw [if_pos hpos] at hnone
        simp at hnone
      · exact le_trans (hmax j' hj') (not_lt.mp hpos)
    · rintro ⟨k, hk, hpos⟩
      have hRpos : R.1 > 0 := lt_of_lt_of_le hpos (hmax k hk)
      refine ⟨ps j, R.1, ?_⟩
      rw [hfb]
      simp only [h2]
      rw [if_pos hRpos]

/-- Closed witness for `find_best_size_max_and_positivity`: a direction
whose samples all have profitability 1 yields a returned opportunity. -/
theorem find_best_size_max_and_positivity_witness :
    ∃ p q, find_best_size_for_direction goodBuilder "binance" "uniswap_v2" exampleConfig =
      .ok (some (p, q)) :=
  (find_best_size_max_and_positivity goodBuilder "binance" "uniswap_v2" exampleConfig
    (fun i => goodSample exampleConfig "binance" "uniswap_v2" i)
    (fun i _ => rfl)).2.2
    ⟨0, by norm_num [num_steps],
      by
        rw [goodSample_profit exampleConfig "binance" "uniswap_v2" 0
          (order_amount_example_ne 0)]
        norm_num⟩

/-- C6: any configuration with `max_order_amount < min_order_amount`, a
sweep step count below 2, or a negative fraction is rejected with a
`ConfigurationError` at configuration-load time, and the pipeline — for
every builder, so no sweep and no quote request — does not run. -/
theorem configuration_error_blocks_pipeline (cfg : Config) (steps : ℕ)
    (st : ControllerState)
    (h : cfg.max_order_amount < cfg.min_order_amount ∨ steps < 2 ∨
      cfg.min_profitability < 0 ∨ cfg.market_1_slippage_buffer < 0 ∨
      cfg.market_2_slippage_buffer < 0) :
    ∀ build : Builder, ∃ e : ConfigurationError,
      load_and_run build cfg steps st = .error (.configurationError e) := by
  intro build
  by_cases h1 : cfg.max_order_amount < cfg.min_order_amount
  · exact ⟨.invalidOrderBounds, by simp only [load_and_run, validate_config, if_pos h1]⟩
  · by_cases h2 : steps < 2
    · exact ⟨.invalidStepCount,
        by simp only [load_and_run, validate_config, if_neg h1, if_pos h2]⟩
    · have h3 : cfg.min_profitability < 0 ∨ cfg.market_1_slippage_buffer < 0 ∨
          cfg.market_2_slippage_buffer < 0 := by tauto
      exact ⟨.negativeFraction,
        by simp only [load_and_run, validate_config, if_neg h1, if_neg h2, if_pos h3]⟩

/-- Closed witness for `configuration_error_blocks_pipeline`: the
configuration with `max_order_amount = 0 < 0.01 = min_order_amount`. -/
theorem configuration_error_blocks_pipeline_witness :
    ∃ e : ConfigurationError,
      load_and_run goodBuilder badBoundsConfig 20 { last_proposal := none } =
        .error (.configurationError e) :=
  configuration_error_blocks_pipeline badBoundsConfig 20 { last_proposal := none }
    (Or.inl (by norm_num [badBoundsConfig, exampleConfig])) goodBuilder

/-- C8: when `find_optimal_arb_opportunity` finds no opportunity,
`determine_actions` returns an empty action list, raises no error, and
leaves `last_proposal` unchanged. -/
theorem determine_actions_no_opportunity (build : Builder) (cfg : Config)
    (st : ControllerState)
    (h : find_optimal_arb_opportunity build cfg = .ok none) :
    determine_actions build cfg st = .ok ([], st) := by
  unfold determine_actions
  rw [h]

/-- Closed witness for `determine_actions_no_opportunity`: a builder with
zero profitability everywhere yields no opportunity and no action. -/
theorem determine_actions_no_opportunity_witness :
    determine_actions flatBuilder exampleConfig { last_proposal := none } =
      .ok ([], { last_proposal := none }) :=
  determine_actions_no_opportunity flatBuilder exampleConfig
    { last_proposal := none } find_optimal_flat_example

/-- C9: the direction-selection pipeline is deterministic — two runs whose
quote providers answer identically on every (buy venue, sell venue, size)
request produce the same result. -/
theorem find_optimal_deterministic (b1 b2 : Builder) (cfg : Config)
    (h : ∀ bm sm a, b1 bm sm a = b2 bm sm a) :
    find_optimal_arb_opportunity b1 cfg = find_optimal_arb_opportunity b2 cfg := by
  have hb : b1 = b2 := funext fun bm => funext fun sm => funext fun a => h bm sm a
  rw [hb]

/-- Closed witness for `find_optimal_deterministic`. -/
theorem find_optimal_deterministic_witness :
    find_optimal_arb_opportunity goodBuilder exampleConfig =
      find_optimal_arb_opportunity goodBuilder exampleConfig :=
  find_optimal_deterministic goodBuilder goodBuilder exampleConfig (fun _ _ _ => rfl)

/-- C10: whenever an opportunity is found, `determine_actions` overwrites
`last_proposal` with its proposal (even below the profitability threshold),
and creates executors exactly when `profit_pct ≥ min_profitability`
(non-strict); below the threshold it returns an empty list while
`last_proposal` holds the new proposal. -/
theorem determine_actions_gate_and_last_proposal (build : Builder) (cfg : Config)
    (st : ControllerState) (p : ArbProposal) (q : ℚ)
    (h : find_optimal_arb_opportunity build cfg = .ok (some (p, q))) :
    determine_actions build cfg st =
      .ok (if q ≥ cfg.min_profitability then create_executors cfg p else [],
        { last_proposal := some p }) := by
  unfold determine_actions
  simp only [h]
  split_ifs with hq <;> rfl

/-- Closed witness for `determine_actions_gate_and_last_proposal`: the
tie-winning direction-2 proposal with profitability 1 passes the 0.5%
gate, and `last_proposal` is overwritten with it. -/
theorem determine_actions_gate_and_last_proposal_witness :
    determine_actions goodBuilder exampleConfig { last_proposal := none } =
      .ok (if (1 : ℚ) ≥ exampleConfig.min_profitability then
          create_executors exampleConfig
            (goodSample exampleConfig exampleConfig.connector_2
              exampleConfig.connector_1 0)
        else [],
        { last_proposal := some (goodSample exampleConfig
          exampleConfig.connector_2 exampleConfig.connector_1 0) }) :=
  determine_actions_gate_and_last_proposal goodBuilder exampleConfig
    { last_proposal := none }
    (goodSample exampleConfig exampleConfig.connector_2 exampleConfig.connector_1 0) 1
    find_optimal_good_example

end AmmArb
